/-
Verification of the request-processing pipeline of the openclaw-improved
orchestrator, as a shallow embedding in Lean 4.

Conventions of the embedding:
* Python strings are Lean `String`s; Python `len` on a string is the number
  of Unicode code points, matching Lean's `String.length`.
* Python/SQLite floating-point amounts (USD costs, timestamps, budget caps)
  are modelled exactly as rationals `ℚ`.
* External I/O (LLM provider network calls, the Chroma vector index, the
  Ollama HTTP endpoint) cannot be executed inside the embedding; each such
  call site takes its outcome as an explicit oracle parameter (a value or
  an error carrying the Python exception's string form).
* SQLite tables are modelled as in-memory values: the message log and the
  cost log as lists (append order = autoincrement id order), the response
  cache as a key-indexed partial map.
-/
import Mathlib

namespace OpenClaw

/-- A chat message, i.e. one Python dict `{"role": ..., "content": ...}`
from the `messages` lists built in `src/orchestrator/core.py`. -/
structure Msg where
  role : String
  content : String
deriving DecidableEq, Repr

/-- One row of the `messages` table written by `MessageBus.log`
(`src/message_bus.py`, lines 177-193).  `meta` carries the value of the
`task_type` metadata entry when the caller passes metadata. -/
structure LogEntry where
  source : String
  target : String
  role : String
  content : String
  meta : Option String
deriving DecidableEq, Repr

/-- `needle` occurs as a contiguous run starting at some suffix of `haystack`. -/
def containsAux (needle : List Char) : List Char → Bool
  | [] => needle.isEmpty
  | c :: rest => needle.isPrefixOf (c :: rest) || containsAux needle rest

/-- Python `needle in haystack` substring test on strings. -/
def strContains (haystack needle : String) : Bool :=
  containsAux needle.data haystack.data

/-- Python `str.lower()` (it agrees with `Char.toLower` on the ASCII
strings this code applies it to). -/
def pyLower (s : String) : String :=
  ⟨s.data.map Char.toLower⟩

/-- `AgentRouter._classify_task` (`src/agents/router.py`, lines 22-33):
fixed ordered substring rules on the lowercased task text, first match
wins. -/
def classifyTask (task : String) : String :=
  let t := pyLower task
  if strContains t "classify" || strContains t "category" then "classify"
  else if strContains t "summar" || strContains t "summary" then "summarize"
  else if strContains t "code" || strContains t "program" || strContains t "implement" then
    "code_gen"
  else if strContains t "reason" || strContains t "analyze" || strContains t "explain why" then
    "reasoning"
  else "default"

/-! ## Canonical JSON serialization used by `ResponseCache._hash`

`_hash` (`src/models/cache.py`, lines 28-30) computes
`json.dumps({"model": model, "messages": messages}, sort_keys=True)` and
returns its SHA-256 hex digest.  With `sort_keys=True`, default separators
`(", ", ": ")` and the default `ensure_ascii=True`, the serialization is
the exact character sequence produced by `encTop` below (keys sorted:
"messages" < "model", and "content" < "role" inside each message).  The
digest is a fixed deterministic function of this string; the spec treats
it as collision-free, so the embedding uses the serialization itself as
the cache key. -/

/-- Lowercase hex digit, as produced by CPython's `"\u%04x"` formatting. -/
def hexDig (d : Nat) : Char :=
  if d < 10 then Char.ofNat (48 + d) else Char.ofNat (87 + d)

/-- The four hex digits of `n % 0x10000`, most significant first. -/
def hex4 (n : Nat) : List Char :=
  [hexDig (n / 4096 % 16), hexDig (n / 256 % 16), hexDig (n / 16 % 16), hexDig (n % 16)]

/-- How `json.dumps` with `ensure_ascii=True` renders one character inside a
string literal: `\"` and `\\` escapes, short escapes for the five control
characters that have them, printable ASCII `0x20..0x7e` verbatim, `\uXXXX`
for every other BMP scalar, and a `\uXXXX\uXXXX` surrogate pair for
characters above `0xFFFF`. -/
def escapeChar (c : Char) : List Char :=
  if c = '"' then ['\\', '"']
  else if c = '\\' then ['\\', '\\']
  else if c = '\n' then ['\\', 'n']
  else if c = '\t' then ['\\', 't']
  else if c = '\r' then ['\\', 'r']
  else if c = '\x08' then ['\\', 'b']
  else if c = '\x0c' then ['\\', 'f']
  else if 0x20 ≤ c.toNat ∧ c.toNat ≤ 0x7e then [c]
  else if c.toNat < 0x10000 then '\\' :: 'u' :: hex4 c.toNat
  else
    ('\\' :: 'u' :: hex4 (0xd800 + (c.toNat - 0x10000) / 1024)) ++
    ('\\' :: 'u' :: hex4 (0xdc00 + (c.toNat - 0x10000) % 1024))

/-- JSON string literal for `s`: opening quote, escaped body, closing quote. -/
def encStr (s : String) : List Char :=
  '"' :: (s.data.flatMap escapeChar) ++ ['"']

/-- Serialization of one message dict, keys sorted ("content" < "role"). -/
def encMsg (m : Msg) : List Char :=
  "\x7b\"content\": ".data ++ encStr m.content ++ ", \"role\": ".data ++ encStr m.role
    ++ "\x7d".data

/-- Serialization of the message list body: items joined by `", "`. -/
def encMsgsAux : List Msg → List Char
  | [] => []
  | [m] => encMsg m
  | m :: ms => encMsg m ++ ", ".data ++ encMsgsAux ms

/-- Serialization of the message list, including the brackets. -/
def encMsgs (l : List Msg) : List Char :=
  '[' :: encMsgsAux l ++ [']']

/-- The full canonical serialization
`json.dumps({"model": model, "messages": messages}, sort_keys=True)`. -/
def encTop (model : String) (messages : List Msg) : List Char :=
  "\x7b\"messages\": ".data ++ encMsgs messages ++ ", \"model\": ".data ++ encStr model
    ++ "\x7d".data

/-! ### A decoder for the canonical serialization

The decoder below is used only to prove that the serialization is
injective (two distinct `(model, messages)` inputs can never produce the
same cache key): decoding is a left inverse of encoding. -/

/-- Value of a lowercase hex digit. -/
def hexVal (c : Char) : Option Nat :=
  if 48 ≤ c.toNat ∧ c.toNat ≤ 57 then some (c.toNat - 48)
  else if 97 ≤ c.toNat ∧ c.toNat ≤ 102 then some (c.toNat - 87)
  else none

/-- Value of four hex digits, most significant first. -/
def hexVal4 (a b c d : Char) : Option Nat := do
  let x ← hexVal a
  let y ← hexVal b
  let z ← hexVal c
  let w ← hexVal d
  pure (4096 * x + 256 * y + 16 * z + w)

/-- Decode one character of a JSON string-literal body: either a plain
character or one escape sequence (including `\uXXXX` and surrogate
pairs).  Returns the decoded character and the remainder. -/
def decodeOne : List Char → Option (Char × List Char)
  | [] => none
  | c :: rest =>
    if c = '"' then none
    else if c = '\\' then
      match rest with
      | [] => none
      | e :: r =>
        if e = '"' then some ('"', r)
        else if e = '\\' then some ('\\', r)
        else if e = 'n' then some ('\n', r)
        else if e = 't' then some ('\t', r)
        else if e = 'r' then some ('\r', r)
        else if e = 'b' then some ('\x08', r)
        else if e = 'f' then some ('\x0c', r)
        else if e = 'u' then
          match r with
          | a :: b :: c2 :: d :: r2 =>
            match hexVal4 a b c2 d with
            | none => none
            | some h =>
              if 0xd800 ≤ h ∧ h < 0xdc00 then
                match r2 with
                | x :: y :: a2 :: b2 :: c3 :: d2 :: r3 =>
                  if x = '\\' ∧ y = 'u' then
                    match hexVal4 a2 b2 c3 d2 with
                    | none => none
                    | some lo =>
                      if 0xdc00 ≤ lo ∧ lo < 0xe000 then
                        some (Char.ofNat (0x10000 + (h - 0xd800) * 1024 + (lo - 0xdc00)), r3)
                      else none
                  else none
                | _ => none
              else if 0xdc00 ≤ h ∧ h < 0xe000 then none
              else some (Char.ofNat h, r2)
          | _ => none
        else none
    else some (c, rest)

/-- Parse the body of a JSON string literal up to and including the closing
quote; return the decoded characters and the unconsumed remainder.  `fuel`
bounds the number of decoded characters; the wrapper `parseJString` below
instantiates it with the input length, which always suffices. -/
def parseEscLoop : Nat → List Char → Option (List Char × List Char)
  | _, [] => none
  | fuel, c :: rest =>
    if c = '"' then some ([], rest)
    else match fuel with
    | 0 => none
    | f + 1 =>
      match decodeOne (c :: rest) with
      | none => none
      | some (ch, r) => (parseEscLoop f r).map (fun p => (ch :: p.1, p.2))

/-- Parse a whole JSON string literal (opening quote included). -/
def parseJString : List Char → Option (List Char × List Char)
  | '"' :: rest => parseEscLoop rest.length rest
  | _ => none

/-- Consume an exact expected character sequence. -/
def dropExact : List Char → List Char → Option (List Char)
  | [], l => some l
  | p :: ps, c :: cs => if c = p then dropExact ps cs else none
  | _ :: _, [] => none

/-- Parse one serialized message dict. -/
def parseMsg (l : List Char) : Option (Msg × List Char) := do
  let l1 ← dropExact "\x7b\"content\": ".data l
  let (c, l2) ← parseJString l1
  let l3 ← dropExact ", \"role\": ".data l2
  let (r, l4) ← parseJString l3
  let l5 ← dropExact "\x7d".data l4
  pure (⟨String.mk r, String.mk c⟩, l5)

/-- Parse a nonempty `", "`-separated message sequence, up to and including
the closing bracket.  `fuel` bounds the number of messages. -/
def parseMsgSeq : Nat → List Char → Option (List Msg × List Char)
  | 0, _ => none
  | fuel + 1, l => do
    let (m, r) ← parseMsg l
    match r with
    | ']' :: r2 => pure ([m], r2)
    | ',' :: ' ' :: r2 => do
      let (ms, r3) ← parseMsgSeq fuel r2
      pure (m :: ms, r3)
    | _ => none

/-- Parse a serialized message list, brackets included. -/
def parseMsgList : List Char → Option (List Msg × List Char)
  | '[' :: ']' :: rest => some ([], rest)
  | '[' :: rest => parseMsgSeq (rest.length + 1) rest
  | _ => none

/-- Parse the full canonical serialization back into `(model, messages)`. -/
def parseTop (l : List Char) : Option (String × List Msg) := do
  let l1 ← dropExact "\x7b\"messages\": ".data l
  let (ms, l2) ← parseMsgList l1
  let l3 ← dropExact ", \"model\": ".data l2
  let (m, l4) ← parseJString l3
  let l5 ← dropExact "\x7d".data l4
  match l5 with
  | [] => pure (String.mk m, ms)
  | _ => none

/-! ## `ResponseCache` (`src/models/cache.py`)

The sqlite `cache` table is a partial map from key to
`(value, created_at)`.  `_hash` returns the SHA-256 hex digest of the
canonical serialization `encTop`; the digest is a deterministic function
of that string and is treated as collision-free (the spec's
"no accidental collision"), so the embedding uses the serialization
itself as the key. -/

/-- The cache key of `_hash(model, messages)` (lines 28-30). -/
def cacheKey (model : String) (messages : List Msg) : String :=
  String.mk (encTop model messages)

/-- State of one `ResponseCache`: the configured `ttl_seconds` and the
backing table. -/
structure ResponseCacheState where
  ttl : Int
  store : String → Option (String × ℚ)

/-- `ResponseCache.get` (lines 32-45), at wall-clock time `now`
(`time.time()`): returns the cached value, or `none`; an entry strictly
older than a positive TTL reads as absent and is deleted. -/
def cacheGet (s : ResponseCacheState) (model : String) (messages : List Msg) (now : ℚ) :
    Option String × ResponseCacheState :=
  let key := cacheKey model messages
  match s.store key with
  | none => (none, s)
  | some (v, created) =>
    if s.ttl > 0 ∧ now - created > (s.ttl : ℚ) then
      (none, { s with store := fun k => if k = key then none else s.store k })
    else (some v, s)

/-- `ResponseCache.set` (lines 47-53): `INSERT OR REPLACE` of
`(key, response, time.time())`. -/
def cacheSet (s : ResponseCacheState) (model : String) (messages : List Msg)
    (response : String) (now : ℚ) : ResponseCacheState :=
  let key := cacheKey model messages
  { s with store := fun k => if k = key then some (response, now) else s.store k }

/-! ## `CostTracker` (`src/models/cost_tracker.py`)

The `cost_log` table is a list of rows in insertion order.  Only the
calendar date of the `timestamp` column matters to the aggregate queries,
so a row stores `date(timestamp)` directly. -/

/-- One row of `cost_log`. -/
structure CostRow where
  date : String
  agentId : String
  model : String
  inputTokens : Nat
  outputTokens : Nat
  costUsd : ℚ
deriving DecidableEq, Repr

/-- The static `MODEL_COSTS` table (lines 61-67) with the default price
`{"input": 0.001, "output": 0.002}` used by `.get` in `log` (line 100):
USD per 1000 input tokens and per 1000 output tokens. -/
def modelCosts (model : String) : ℚ × ℚ :=
  if model = "gpt-4o" then (0.005, 0.015)
  else if model = "gpt-4o-mini" then (0.00015, 0.0006)
  else if model = "gpt-4-turbo" then (0.01, 0.03)
  else if model = "claude-3-5-sonnet" then (0.003, 0.015)
  else if model = "claude-3-haiku" then (0.00025, 0.00125)
  else (0.001, 0.002)

/-- `CostTracker.log` (lines 93-108): computes the cost, appends one row
stamped with the current date, and returns the cost. -/
def costTrackerLog (rows : List CostRow) (today agentId model : String)
    (inputTokens outputTokens : Nat) : ℚ × List CostRow :=
  let c := (inputTokens : ℚ) / 1000 * (modelCosts model).1
    + (outputTokens : ℚ) / 1000 * (modelCosts model).2
  (c, rows ++ [⟨today, agentId, model, inputTokens, outputTokens, c⟩])

/-- `CostTracker.get_daily_total` (lines 110-116): sum of `cost_usd` over
the rows whose date is the current date. -/
def getDailyTotal (rows : List CostRow) (today : String) : ℚ :=
  ((rows.filter (fun r => r.date == today)).map (fun r => r.costUsd)).sum

/-- A sequence of `CostTracker.log` calls made on one date: returns the
individually returned costs and the final table. -/
def runRecords (rows : List CostRow) (today : String) :
    List (String × String × Nat × Nat) → List ℚ × List CostRow
  | [] => ([], rows)
  | (a, m, i, o) :: rest =>
    let step := costTrackerLog rows today a m i o
    let next := runRecords step.2 today rest
    (step.1 :: next.1, next.2)

/-! ## `llm_client` (`src/models/llm_client.py`) -/

/-- The resolved credentials (`src/config.py`, `Settings`): empty string
means "not set" (Python falsiness of `""`). -/
structure Env where
  openaiApiKey : String
  anthropicApiKey : String

/-- `_is_claude` (lines 6-7): `model.lower().startswith("claude")`. -/
def isClaudeModel (model : String) : Bool :=
  "claude".data.isPrefixOf (pyLower model).data

/-- A network request `complete` is about to issue to a provider. -/
inductive ProviderCall where
  | anthropic (model : String)
  | openai (model : String)
deriving DecidableEq, Repr

/-- The failure `complete` raises before any network activity. -/
inductive LLMError where
  | credentialMissing (msg : String)
deriving DecidableEq, Repr

/-- The dispatch-and-credential-check logic of the body of `complete`
(lines 10-25): select the provider from the model name, fail with the
credential-missing `ValueError` if the selected provider's key is absent,
otherwise hand off to the provider call.  An `.error` result carries no
`ProviderCall`: no network request is issued on that path. -/
def completeDispatch (env : Env) (model : String) : Except LLMError ProviderCall :=
  if isClaudeModel model then
    if env.anthropicApiKey = "" then
      .error (.credentialMissing "Anthropic/Claude API key not set. Run: python main.py setup")
    else .ok (.anthropic model)
  else
    if env.openaiApiKey = "" then
      .error (.credentialMissing "OpenAI API key not set. Run: python main.py setup")
    else .ok (.openai model)

/-- Syntactic facts CPython checks when compiling an `async def`: whether
the body contains a `yield` (making it an async generator) and whether it
contains a `return` with a value.  A `return` with a value inside an
async generator is a compile-time `SyntaxError` (PEP 525), so a module
containing one cannot be imported. -/
structure PyAsyncFn where
  hasYield : Bool
  hasReturnWithValue : Bool
deriving DecidableEq, Repr

/-- CPython accepts the function iff it is not an async generator with a
value-carrying `return`. -/
def pyAsyncFnCompiles (f : PyAsyncFn) : Bool :=
  !(f.hasYield && f.hasReturnWithValue)

/-- `_openai_complete` (lines 28-38): `async def` with `yield` (line 35)
and `return resp.choices[0].message.content or ""` (line 38). -/
def openaiCompleteFn : PyAsyncFn := ⟨true, true⟩

/-- `_anthropic_complete` (lines 41-67): `async def` with `yield t`
(line 58) and `return (r.content[0].text ...) or ""` (line 67). -/
def anthropicCompleteFn : PyAsyncFn := ⟨true, true⟩

/-- Whether the module `src/models/llm_client.py` compiles (hence whether
`from src.models.llm_client import complete` can succeed). -/
def llmClientModuleCompiles : Bool :=
  pyAsyncFnCompiles openaiCompleteFn && pyAsyncFnCompiles anthropicCompleteFn

/-! ## `MemoryStore.search` (`src/memory/store.py`, lines 57-68) -/

/-- One entry of the list `search` returns. -/
structure FactHit where
  id : String
  content : String
  distance : ℚ
deriving DecidableEq, Repr

/-- `MemoryStore.search`: when the semantic index is unavailable
(`self.collection` is `None`, i.e. Chroma absent), return `[]` without
touching the index; otherwise the result is whatever the Chroma query
produces — `collection` carries that outcome as an oracle, already shaped
into the `{id, content, distance}` list built by lines 62-68, or the
exception the query raised. -/
def memoryStoreSearch (collection : Option (Except String (List FactHit))) :
    Except String (List FactHit) :=
  match collection with
  | none => .ok []
  | some outcome => outcome

/-! ## The orchestration pipeline (`src/orchestrator/core.py`)

`Orchestrator.process` is an async generator; one completed call is
modelled as a function from its inputs and the outcomes of its external
calls (LLM backend, Ollama, memory search) to the final observable
result: the yielded tokens, the message-log appends, the cost-log
appends, the cache state, and whether an exception escaped to the
caller. -/

/-- `budget.enabled` / `budget.daily_usd` from `BudgetConfig`
(`src/config.py`). -/
structure BudgetSettings where
  enabled : Bool
  dailyUsd : ℚ

/-- The settings fields of `SettingsYaml` that `process` reads. -/
structure OrchSettings where
  useSubagents : Bool
  budget : BudgetSettings

/-- The fixed system instruction `Orchestrator._system_prompt`
(`core.py`, lines 40-52). -/
def systemPromptText : String :=
  "You are an AI orchestrator with access to the user's device. You can:\n- Read and write files (you will receive tool outputs)\n- Use external APIs when the user provides keys\n- Execute tasks and respond helpfully\n\nRules:\n- Do not send messages or make external API calls without user permission unless explicitly asked\n- Be concise but helpful\n- When writing files, use the output directory provided\n- If you need to do something you cannot do, explain what's needed\n\nThe user will send you messages. Respond appropriately."

/-- Round to the nearest integer, ties to even — the rounding CPython's
`"%.2f"` formatting applies (on the binary float value; the embedding
applies it to the exact rational). -/
def roundHalfEven (x : ℚ) : ℤ :=
  if x - ⌊x⌋ < 1/2 then ⌊x⌋
  else if 1/2 < x - ⌊x⌋ then ⌊x⌋ + 1
  else if ⌊x⌋ % 2 = 0 then ⌊x⌋ else ⌊x⌋ + 1

/-- Python `f"\x7bq:.2f\x7d"` for a nonnegative amount. -/
def fmt2 (q : ℚ) : String :=
  let cents := (roundHalfEven (|q| * 100)).toNat
  (if q < 0 then "-" else "") ++ toString (cents / 100) ++ "."
    ++ (if cents % 100 < 10 then "0" else "") ++ toString (cents % 100)

/-- The budget short-circuit message (`core.py`, line 82). -/
def budgetCapMessage (daily : ℚ) : String :=
  "Budget cap reached (daily $" ++ fmt2 daily
    ++ "). Set budget.enabled: false or increase daily_usd."

/-- The context block built from memory search results (`core.py`, lines
67-73): on any exception from the store the context stays empty (`except
Exception: pass`); a successful search contributes a context block only
when it returned at least one fact (`if facts:`).  The oracle carries the
`f["content"]` values of a successful search, or the exception. -/
def memoryContext : Except Unit (List String) → String
  | .error _ => ""
  | .ok [] => ""
  | .ok facts => "\nRelevant context:\n" ++ String.intercalate "\n" facts

/-- The message list built at `core.py`, lines 75-78. -/
def procMessages (context userMessage : String) : List Msg :=
  [⟨"system", systemPromptText ++ context⟩, ⟨"user", userMessage⟩]

/-- Outcome of iterating a provider token stream: it either ends normally
after yielding `tokens`, or raises after yielding `tokens`.  The failure
of `from src.models.llm_client import complete` itself (see
`llmClientModuleCompiles`) is the `fail [] e` case: it raises before any
token is produced. -/
inductive StreamResult where
  | ok (tokens : List String)
  | fail (tokens : List String) (err : String)
deriving DecidableEq, Repr

/-- Everything observable about one completed call to `process`. -/
structure ProcResult where
  tokens : List String
  log : List LogEntry
  costRows : List CostRow
  cache : ResponseCacheState
  backendCalled : Bool
  fallbackAttempts : Nat
  raised : Option String

/-- `LLMAgent.run` (`src/agents/workers/llm_worker.py`, lines 117-138):
logs the system "Running task" entry, then streams from the OpenAI
client, accumulating the full text, and logs it as the assistant reply
after the stream ends.  Accessing `self.client` raises `ValueError` when
`OPENAI_API_KEY` is unset; that exception (and any mid-stream exception)
propagates to the caller, skipping the assistant log.  Returns (yielded
tokens, message-log appends, escaped exception). -/
def workerRun (routedModel taskType : String) (openaiKeyPresent : Bool)
    (sres : StreamResult) : List String × List LogEntry × Option String :=
  let startLog : LogEntry :=
    ⟨"default", "orchestrator", "system", "Running task (model=" ++ routedModel ++ ")",
      some taskType⟩
  if openaiKeyPresent then
    match sres with
    | .ok toks =>
      (toks, [startLog,
        ⟨"default", "orchestrator", "assistant", String.join toks, none⟩], none)
    | .fail toks e => (toks, [startLog], some e)
  else ([], [startLog], some "OPENAI_API_KEY not set")

/-- `AgentRouter.route` (`src/agents/router.py`, lines 35-45): classify,
log the inbound task (with the task type as metadata), relay the worker's
stream, then log the accumulated reply as the assistant turn.  Returns
(yielded tokens, message-log appends, escaped exception, chosen task
type). -/
def routeRun (task source routedModel : String) (openaiKeyPresent : Bool)
    (sres : StreamResult) : List String × List LogEntry × Option String × String :=
  let taskType := classifyTask task
  let userLog : LogEntry := ⟨source, "router", "user", task, some taskType⟩
  let wr := workerRun routedModel taskType openaiKeyPresent sres
  match wr.2.2 with
  | some e => (wr.1, userLog :: wr.2.1, some e, taskType)
  | none =>
    (wr.1, userLog :: wr.2.1 ++ [⟨"router", source, "assistant", String.join wr.1, none⟩],
      none, taskType)

/-- The text the exception handler ends up yielding and logging: the
fallback reply itself when Ollama is enabled and succeeds, the combined
two-failure message when it is enabled and also fails (`core.py`, line
125), and the single error message when it is disabled (line 128). -/
def fallbackMessage (e : String) (ollamaEnabled : Bool)
    (ollamaOutcome : Except String String) : String :=
  if ollamaEnabled then
    match ollamaOutcome with
    | .ok t => t
    | .error e2 => "Cloud API error: " ++ e ++ ". Ollama fallback failed: " ++ e2
  else "Error: " ++ e

/-- The exception handler of `process` (`core.py`, lines 113-129): one
fallback attempt against Ollama when it is enabled; `e` is the primary
failure, `prefixToks` the tokens already yielded before it. -/
def procFallback (userLog : LogEntry) (source e : String) (prefixToks : List String)
    (costRows : List CostRow) (cache1 : ResponseCacheState) (ollamaEnabled : Bool)
    (ollamaOutcome : Except String String) : ProcResult :=
  let m := fallbackMessage e ollamaEnabled ollamaOutcome
  ⟨prefixToks ++ [m], [userLog, ⟨"orchestrator", source, "assistant", m, none⟩],
    costRows, cache1, true, if ollamaEnabled then 1 else 0, none⟩

/-- The backend call of `process` (`core.py`, lines 93-131): streaming
relays tokens and records cost from the `÷4` character estimates (with
the `max(1, ·)` floor) after a normal end; non-streaming records cost
(no floor), writes the cache, and yields once; any exception goes to the
fallback handler. -/
def procBackend (userLog : LogEntry) (source model : String) (stream : Bool)
    (messages : List Msg) (today : String) (now : ℚ) (costRows : List CostRow)
    (cache1 : ResponseCacheState) (primaryStream : StreamResult)
    (primaryFull : Except String String) (ollamaEnabled : Bool)
    (ollamaOutcome : Except String String) : ProcResult :=
  if stream then
    match primaryStream with
    | .ok toks =>
      let full := String.join toks
      let inpEst := (messages.map (fun m => m.content.length)).sum / 4
      let outEst := full.length / 4
      let logged := costTrackerLog costRows today "orchestrator" model (max 1 inpEst)
        (max 1 outEst)
      ⟨toks, [userLog, ⟨"orchestrator", source, "assistant", full, none⟩],
        logged.2, cache1, true, 0, none⟩
    | .fail toks e =>
      procFallback userLog source e toks costRows cache1 ollamaEnabled ollamaOutcome
  else
    match primaryFull with
    | .ok text =>
      let inpEst := (messages.map (fun m => m.content.length)).sum / 4
      let logged := costTrackerLog costRows today "orchestrator" model inpEst
        (text.length / 4)
      ⟨[text], [userLog, ⟨"orchestrator", source, "assistant", text, none⟩],
        logged.2, cacheSet cache1 model messages text now, true, 0, none⟩
    | .error e =>
      procFallback userLog source e [] costRows cache1 ollamaEnabled ollamaOutcome

/-- `Orchestrator.process` (`core.py`, lines 54-131), non-subagent part
after the memory context has been resolved. -/
def processMain (settings : OrchSettings) (model userMessage source : String)
    (stream : Bool) (today : String) (now : ℚ) (costRows : List CostRow)
    (cache : ResponseCacheState) (context : String) (primaryStream : StreamResult)
    (primaryFull : Except String String) (ollamaEnabled : Bool)
    (ollamaOutcome : Except String String) : ProcResult :=
  let userLog : LogEntry := ⟨source, "orchestrator", "user", userMessage, none⟩
  let messages := procMessages context userMessage
  if settings.budget.enabled ∧ getDailyTotal costRows today ≥ settings.budget.dailyUsd then
    ⟨[budgetCapMessage (getDailyTotal costRows today)],
      [userLog, ⟨"orchestrator", source, "assistant",
        budgetCapMessage (getDailyTotal costRows today), none⟩],
      costRows, cache, false, 0, none⟩
  else if stream then
    procBackend userLog source model stream messages today now costRows cache
      primaryStream primaryFull ollamaEnabled ollamaOutcome
  else
    match cacheGet cache model messages now with
    | (some c, cache1) =>
      if c ≠ "" then
        ⟨[c], [userLog, ⟨"orchestrator", source, "assistant", c, none⟩],
          costRows, cache1, false, 0, none⟩
      else
        procBackend userLog source model stream messages today now costRows cache1
          primaryStream primaryFull ollamaEnabled ollamaOutcome
    | (none, cache1) =>
      procBackend userLog source model stream messages today now costRows cache1
        primaryStream primaryFull ollamaEnabled ollamaOutcome

/-- `Orchestrator.process` (`core.py`, lines 54-131).  Oracle parameters:
`memOutcome` is the memory search outcome, `primaryStream`/`primaryFull`
the outcome of the `llm_client.complete` step in the mode actually used,
`ollamaOutcome` the outcome of `OllamaClient.complete`;
`routedModel`/`openaiKeyPresent`/`workerStream` feed the sub-agent path. -/
def process (settings : OrchSettings) (model userMessage source : String)
    (stream : Bool) (today : String) (now : ℚ) (costRows : List CostRow)
    (cache : ResponseCacheState) (memOutcome : Except Unit (List String))
    (primaryStream : StreamResult) (primaryFull : Except String String)
    (ollamaEnabled : Bool) (ollamaOutcome : Except String String)
    (routedModel : String) (openaiKeyPresent : Bool) (workerStream : StreamResult) :
    ProcResult :=
  if settings.useSubagents then
    let rr := routeRun userMessage source routedModel openaiKeyPresent workerStream
    ⟨rr.1, rr.2.1, costRows, cache, false, 0, rr.2.2.1⟩
  else
    processMain settings model userMessage source stream today now costRows cache
      (memoryContext memOutcome) primaryStream primaryFull ollamaEnabled ollamaOutcome

/-! ### Roundtrip: decoding is a left inverse of encoding -/
lemma hexVal_hexDig (d : Nat) (h : d < 16) : hexVal (hexDig d) = some d := by
  interval_cases d <;> rfl

lemma hexVal4_hex4 (n : Nat) (h : n < 65536) :
    hexVal4 (hexDig (n / 4096 % 16)) (hexDig (n / 256 % 16)) (hexDig (n / 16 % 16))
      (hexDig (n % 16)) = some n := by
  rw [hexVal4]
  rw [hexVal_hexDig _ (Nat.mod_lt _ (by norm_num)),
      hexVal_hexDig _ (Nat.mod_lt _ (by norm_num)),
      hexVal_hexDig _ (Nat.mod_lt _ (by norm_num)),
      hexVal_hexDig _ (Nat.mod_lt _ (by norm_num))]
  simp
  omega

lemma char_valid_cases (c : Char) :
    c.toNat < 0xd800 ∨ (0xdfff < c.toNat ∧ c.toNat < 0x110000) := c.valid

lemma decodeOne_u (a b c2 d : Char) (r2 : List Char) (h : Nat)
    (hv : hexVal4 a b c2 d = some h) (h1 : ¬(0xd800 ≤ h ∧ h < 0xdc00))
    (h2 : ¬(0xdc00 ≤ h ∧ h < 0xe000)) :
    decodeOne ('\\' :: 'u' :: a :: b :: c2 :: d :: r2) = some (Char.ofNat h, r2) := by
  simp +decide [decodeOne, hv, h1, h2]

lemma decodeOne_u2 (a b c2 d a2 b2 c3 d2 : Char) (r3 : List Char) (h lo : Nat)
    (hv : hexVal4 a b c2 d = some h) (h1 : 0xd800 ≤ h ∧ h < 0xdc00)
    (hv2 : hexVal4 a2 b2 c3 d2 = some lo) (h2 : 0xdc00 ≤ lo ∧ lo < 0xe000) :
    decodeOne ('\\' :: 'u' :: a :: b :: c2 :: d :: '\\' :: 'u' :: a2 :: b2 :: c3 :: d2 :: r3)
      = some (Char.ofNat (0x10000 + (h - 0xd800) * 1024 + (lo - 0xdc00)), r3) := by
  simp +decide [decodeOne, hv, h1, hv2, h2]

lemma decodeOne_escape (c : Char) (tail : List Char) :
    decodeOne (escapeChar c ++ tail) = some (c, tail) := by
  by_cases h1 : c = '"'
  · subst h1; rfl
  by_cases h2 : c = '\\'
  · subst h2; rfl
  by_cases h3 : c = '\n'
  · subst h3; rfl
  by_cases h4 : c = '\t'
  · subst h4; rfl
  by_cases h5 : c = '\r'
  · subst h5; rfl
  by_cases h6 : c = '\x08'
  · subst h6; rfl
  by_cases h7 : c = '\x0c'
  · subst h7; rfl
  by_cases h8 : 0x20 ≤ c.toNat ∧ c.toNat ≤ 0x7e
  · rw [escapeChar]
    simp only [h1, h2, h3, h4, h5, h6, h7, h8, if_true, if_false, ite_true, ite_false]
    simp [decodeOne, h1, h2]
  by_cases h9 : c.toNat < 0x10000
  · have hval := char_valid_cases c
    rw [escapeChar]
    simp only [h1, h2, h3, h4, h5, h6, h7, h8, h9, if_true, if_false, ite_true, ite_false]
    rw [hex4]
    simp only [List.cons_append]
    rw [decodeOne_u _ _ _ _ _ c.toNat (hexVal4_hex4 c.toNat (by omega)) (by omega) (by omega)]
    simp
  · have hval := char_valid_cases c
    rw [escapeChar]
    simp only [h1, h2, h3, h4, h5, h6, h7, h8, h9, if_true, if_false, ite_true, ite_false]
    rw [hex4, hex4]
    simp only [List.cons_append, List.append_assoc, List.nil_append]
    rw [decodeOne_u2 _ _ _ _ _ _ _ _ _ (0xd800 + (c.toNat - 0x10000) / 1024)
        (0xdc00 + (c.toNat - 0x10000) % 1024)
        (hexVal4_hex4 _ (by omega)) (by omega) (hexVal4_hex4 _ (by omega)) (by omega)]
    have : 0x10000 + (0xd800 + (c.toNat - 0x10000) / 1024 - 0xd800) * 1024
        + (0xdc00 + (c.toNat - 0x10000) % 1024 - 0xdc00) = c.toNat := by omega
    rw [this, Char.ofNat_toNat]

lemma escapeChar_cons (c : Char) :
    ∃ h t, escapeChar c = h :: t ∧ h ≠ '"' := by
  by_cases h1 : c = '"'
  · subst h1; exact ⟨_, _, rfl, by decide⟩
  by_cases h2 : c = '\\'
  · subst h2; exact ⟨_, _, rfl, by decide⟩
  by_cases h3 : c = '\n'
  · subst h3; exact ⟨_, _, rfl, by decide⟩
  by_cases h4 : c = '\t'
  · subst h4; exact ⟨_, _, rfl, by decide⟩
  by_cases h5 : c = '\r'
  · subst h5; exact ⟨_, _, rfl, by decide⟩
  by_cases h6 : c = '\x08'
  · subst h6; exact ⟨_, _, rfl, by decide⟩
  by_cases h7 : c = '\x0c'
  · subst h7; exact ⟨_, _, rfl, by decide⟩
  by_cases h8 : 0x20 ≤ c.toNat ∧ c.toNat ≤ 0x7e
  · refine ⟨c, [], ?_, h1⟩
    simp [escapeChar, h1, h2, h3, h4, h5, h6, h7, h8]
  by_cases h9 : c.toNat < 0x10000
  · refine ⟨'\\', 'u' :: hex4 c.toNat, ?_, by decide⟩
    rw [escapeChar]
    simp only [h1, h2, h3, h4, h5, h6, h7, h8, h9, if_true, if_false, ite_true, ite_false]
  · refine ⟨'\\', 'u' :: hex4 (0xd800 + (c.toNat - 0x10000) / 1024)
        ++ ('\\' :: 'u' :: hex4 (0xdc00 + (c.toNat - 0x10000) % 1024)), ?_, by decide⟩
    simp [escapeChar, h1, h2, h3, h4, h5, h6, h7, h8, h9]

lemma parseEscLoop_rt (s : List Char) : ∀ (fuel : Nat) (rest : List Char),
    s.length ≤ fuel →
    parseEscLoop fuel (s.flatMap escapeChar ++ '"' :: rest) = some (s, rest) := by
  induction s with
  | nil =>
    intro fuel rest _
    cases fuel <;> simp [parseEscLoop]
  | cons c s ih =>
    intro fuel rest hf
    match fuel with
    | 0 => simp at hf
    | f + 1 =>
      have hfs : s.length ≤ f := by simpa using hf
      obtain ⟨h0, t0, hE, hq⟩ := escapeChar_cons c
      have hsplit : (c :: s).flatMap escapeChar ++ '"' :: rest
          = h0 :: (t0 ++ (s.flatMap escapeChar ++ '"' :: rest)) := by
        simp [hE]
      rw [hsplit, parseEscLoop, if_neg hq]
      have hdec : decodeOne (h0 :: (t0 ++ (s.flatMap escapeChar ++ '"' :: rest)))
          = some (c, s.flatMap escapeChar ++ '"' :: rest) := by
        have := decodeOne_escape c (s.flatMap escapeChar ++ '"' :: rest)
        rwa [hE] at this
      rw [hdec]
      simp [ih f rest hfs]

lemma flatMap_escape_len (s : List Char) : s.length ≤ (s.flatMap escapeChar).length := by
  induction s with
  | nil => simp
  | cons c s ih =>
    obtain ⟨h0, t0, hE, -⟩ := escapeChar_cons c
    have h1 : 1 ≤ (escapeChar c).length := by rw [hE]; simp
    simp only [List.flatMap_cons, List.length_append, List.length_cons]
    omega

lemma parseJString_rt (s : String) (rest : List Char) :
    parseJString (encStr s ++ rest) = some (s.data, rest) := by
  have hshape : encStr s ++ rest = '"' :: (s.data.flatMap escapeChar ++ '"' :: rest) := by
    simp [encStr]
  rw [hshape, parseJString]
  apply parseEscLoop_rt
  have := flatMap_escape_len s.data
  simp only [List.length_append, List.length_cons]
  omega

lemma dropExact_append (p l : List Char) : dropExact p (p ++ l) = some l := by
  induction p with
  | nil => rfl
  | cons c p ih => simp [dropExact, ih]

lemma mk_data (s : String) : String.mk s.data = s := rfl

lemma parseMsg_rt (m : Msg) (rest : List Char) :
    parseMsg (encMsg m ++ rest) = some (m, rest) := by
  simp +decide [parseMsg, encMsg, dropExact, parseJString_rt, mk_data]

lemma encMsgsAux_len (ms : List Msg) (h : ms ≠ []) : ms.length ≤ (encMsgsAux ms).length := by
  induction ms with
  | nil => simp at h
  | cons m ms ih =>
    match ms with
    | [] => simp [encMsgsAux, encMsg]
    | m2 :: ms2 =>
      have := ih (by simp)
      simp only [encMsgsAux, List.length_append, List.length_cons, encMsg] at *
      simp
      omega

lemma parseMsgSeq_rt (ms : List Msg) : ∀ (fuel : Nat) (rest : List Char), ms ≠ [] →
    ms.length ≤ fuel →
    parseMsgSeq fuel (encMsgsAux ms ++ ']' :: rest) = some (ms, rest) := by
  induction ms with
  | nil => intro fuel rest h; simp at h
  | cons m ms ih =>
    intro fuel rest _ hf
    match fuel with
    | 0 => simp at hf
    | f + 1 =>
      match ms with
      | [] =>
        simp [encMsgsAux, parseMsgSeq, parseMsg_rt]
      | m2 :: ms2 =>
        have hs : encMsgsAux (m :: m2 :: ms2) ++ ']' :: rest
            = encMsg m ++ (',' :: ' ' :: (encMsgsAux (m2 :: ms2) ++ ']' :: rest)) := by
          simp [encMsgsAux]
        rw [hs, parseMsgSeq]
        simp [parseMsg_rt, ih f rest (by simp) (by simpa using hf)]

lemma encMsgsAux_head (ms : List Msg) (h : ms ≠ []) :
    ∃ t, encMsgsAux ms = '\x7b' :: t := by
  match ms with
  | [m] => exact ⟨_, rfl⟩
  | m :: m2 :: ms2 => exact ⟨_, rfl⟩

lemma parseMsgList_rt (ms : List Msg) (rest : List Char) :
    parseMsgList (encMsgs ms ++ rest) = some (ms, rest) := by
  match ms with
  | [] => simp [encMsgs, encMsgsAux, parseMsgList]
  | m :: ms2 =>
    obtain ⟨t, ht⟩ := encMsgsAux_head (m :: ms2) (by simp)
    have hs : encMsgs (m :: ms2) ++ rest = '[' :: ('\x7b' :: t ++ ']' :: rest) := by
      simp [encMsgs, ht]
    rw [hs, parseMsgList]
    rw [show ('\x7b' :: t ++ ']' :: rest) = encMsgsAux (m :: ms2) ++ ']' :: rest by rw [ht]]
    apply parseMsgSeq_rt _ _ _ (by simp)
    have := encMsgsAux_len (m :: ms2) (by simp)
    simp only [ht, List.length_append, List.length_cons] at *
    omega
    intro r hcontra
    simp at hcontra

lemma parseTop_rt (model : String) (msgs : List Msg) :
    parseTop (encTop model msgs) = some (model, msgs) := by
  have hshape : encTop model msgs
      = "\x7b\"messages\": ".data ++ (encMsgs msgs ++ (", \"model\": ".data
        ++ (encStr model ++ "\x7d".data))) := by
    simp [encTop]
  rw [hshape, parseTop]
  simp +decide [dropExact, parseMsgList_rt, parseJString_rt, mk_data]

lemma encTop_inj (m1 m2 : String) (l1 l2 : List Msg)
    (h : encTop m1 l1 = encTop m2 l2) : m1 = m2 ∧ l1 = l2 := by
  have h1 := parseTop_rt m1 l1
  have h2 := parseTop_rt m2 l2
  rw [h, h2] at h1
  simp at h1
  exact ⟨h1.1.symm, h1.2.symm⟩

/-! ## The claims -/
/-- Claim C7: task classification is a pure function of the lowercased task
text applying a fixed ordered set of substring rules with precedence
classify > summarize > code_gen > reasoning > default, first match
winning; `route("please summarize this article")` selects task type
"summarize" and `route("hello")` selects "default". -/
theorem c7_router_classification :
    classifyTask "please summarize this article" = "summarize"
    ∧ classifyTask "hello" = "default"
    ∧ (∀ s m k w, (routeRun "please summarize this article" s m k w).2.2.2 = "summarize")
    ∧ (∀ t₁ t₂ : String, pyLower t₁ = pyLower t₂ → classifyTask t₁ = classifyTask t₂)
    ∧ (∀ t : String,
        ((strContains (pyLower t) "classify" || strContains (pyLower t) "category") = true →
          classifyTask t = "classify")
        ∧ ((strContains (pyLower t) "classify" || strContains (pyLower t) "category") = false →
          (strContains (pyLower t) "summar" || strContains (pyLower t) "summary") = true →
          classifyTask t = "summarize")
        ∧ ((strContains (pyLower t) "classify" || strContains (pyLower t) "category") = false →
          (strContains (pyLower t) "summar" || strContains (pyLower t) "summary") = false →
          (strContains (pyLower t) "code" || strContains (pyLower t) "program"
            || strContains (pyLower t) "implement") = true →
          classifyTask t = "code_gen")
        ∧ ((strContains (pyLower t) "classify" || strContains (pyLower t) "category") = false →
          (strContains (pyLower t) "summar" || strContains (pyLower t) "summary") = false →
          (strContains (pyLower t) "code" || strContains (pyLower t) "program"
            || strContains (pyLower t) "implement") = false →
          (strContains (pyLower t) "reason" || strContains (pyLower t) "analyze"
            || strContains (pyLower t) "explain why") = true →
          classifyTask t = "reasoning")
        ∧ ((strContains (pyLower t) "classify" || strContains (pyLower t) "category") = false →
          (strContains (pyLower t) "summar" || strContains (pyLower t) "summary") = false →
          (strContains (pyLower t) "code" || strContains (pyLower t) "program"
            || strContains (pyLower t) "implement") = false →
          (strContains (pyLower t) "reason" || strContains (pyLower t) "analyze"
            || strContains (pyLower t) "explain why") = false →
          classifyTask t = "default")) := by
  refine ⟨by decide, by decide, ?_, ?_, ?_⟩
  · intro s m k w
    simp only [routeRun]
    split <;> simp <;> decide
  · intro t₁ t₂ h
    simp only [classifyTask, h]
  · intro t
    refine ⟨?_, ?_, ?_, ?_, ?_⟩ <;> intros <;> simp_all [classifyTask]

/-- Witness for C7 at a concrete input with the first hypothesis
discharged by evaluation. -/
theorem c7_router_classification_witness :
    classifyTask "which category is this" = "classify" :=
  (c7_router_classification.2.2.2.2 "which category is this").1 (by decide)

/-- Claim C4: `get` enforces TTL lazily: an entry inserted at time T with
TTL=60 is present at T+59 and absent (and deleted) at T+61; with TTL ≤ 0
no entry ever expires. -/
theorem c4_cache_ttl_lazy (st : String → Option (String × ℚ)) (model : String)
    (msgs : List Msg) (v : String) (T : ℚ) :
    ((cacheGet (cacheSet ⟨60, st⟩ model msgs v T) model msgs (T + 59)).1 = some v)
    ∧ ((cacheGet (cacheSet ⟨60, st⟩ model msgs v T) model msgs (T + 61)).1 = none)
    ∧ (((cacheGet (cacheSet ⟨60, st⟩ model msgs v T) model msgs (T + 61)).2).store
        (cacheKey model msgs) = none)
    ∧ (∀ ttl : Int, ttl ≤ 0 → ∀ t : ℚ,
        (cacheGet (cacheSet ⟨ttl, st⟩ model msgs v T) model msgs t).1 = some v) := by
  refine ⟨?_, ?_, ?_, ?_⟩
  · simp [cacheGet, cacheSet]
    norm_num
  · simp [cacheGet, cacheSet]
    norm_num
  · simp [cacheGet, cacheSet]
    norm_num
  · intro ttl httl t
    have hc : ¬(0 < ttl ∧ (ttl : ℚ) < t - T) := by
      rintro ⟨h1, -⟩
      omega
    simp [cacheGet, cacheSet, if_neg hc]

/-- Witness for C4: the never-expires clause evaluated at TTL 0 and a
very old entry. -/
theorem c4_cache_ttl_lazy_witness :
    (cacheGet (cacheSet ⟨0, fun _ => none⟩ "m" [] "v" 0) "m" [] 1000000).1 = some "v" :=
  (c4_cache_ttl_lazy (fun _ => none) "m" [] "v" 0).2.2.2 0 (by decide) 1000000

/-- Claim C5: `set` followed by `get` with the same `(model, messages)`
before the TTL elapses returns exactly the stored text; the key is a
deterministic, order-sensitive function of the content, distinct message
lists give distinct keys, and a `set` under a different message list
cannot touch this key's entry. -/
theorem c5_cache_determinism :
    (∀ (st : String → Option (String × ℚ)) (ttl : Int) (model : String) (msgs : List Msg)
      (v : String) (T now : ℚ), ¬(ttl > 0 ∧ now - T > (ttl : ℚ)) →
      (cacheGet (cacheSet ⟨ttl, st⟩ model msgs v T) model msgs now).1 = some v)
    ∧ (∀ (m1 m2 : String) (l1 l2 : List Msg),
        cacheKey m1 l1 = cacheKey m2 l2 → m1 = m2 ∧ l1 = l2)
    ∧ (∀ (model : String) (l1 l2 : List Msg), l1 ≠ l2 →
        cacheKey model l1 ≠ cacheKey model l2)
    ∧ (∀ (st : String → Option (String × ℚ)) (ttl : Int) (model : String)
      (l1 l2 : List Msg) (v : String) (T : ℚ), l1 ≠ l2 →
      (cacheSet ⟨ttl, st⟩ model l2 v T).store (cacheKey model l1) = st (cacheKey model l1)) := by
  have hinj : ∀ (m1 m2 : String) (l1 l2 : List Msg),
      cacheKey m1 l1 = cacheKey m2 l2 → m1 = m2 ∧ l1 = l2 := by
    intro m1 m2 l1 l2 h
    have : encTop m1 l1 = encTop m2 l2 := congrArg String.data h
    exact encTop_inj _ _ _ _ this
  refine ⟨?_, hinj, ?_, ?_⟩
  · intro st ttl model msgs v T now h
    simp [cacheGet, cacheSet, if_neg h]
  · intro model l1 l2 hne h
    exact hne (hinj _ _ _ _ h).2
  · intro st ttl model l1 l2 v T hne
    have hkey : cacheKey model l1 ≠ cacheKey model l2 :=
      fun hh => hne (hinj _ _ _ _ hh).2
    simp [cacheSet, hkey, hkey.symm]

/-- Witness for C5: the roundtrip clause evaluated at a concrete store,
model and message list. -/
theorem c5_cache_determinism_witness :
    (cacheGet (cacheSet ⟨3600, fun _ => none⟩ "gpt-4o-mini" [⟨"user", "hi"⟩] "resp" 100)
      "gpt-4o-mini" [⟨"user", "hi"⟩] 200).1 = some "resp" :=
  c5_cache_determinism.1 (fun _ => none) 3600 "gpt-4o-mini" [⟨"user", "hi"⟩] "resp" 100 200
    (by norm_num)

lemma getDailyTotal_append (rows : List CostRow) (row : CostRow) (today : String) :
    getDailyTotal (rows ++ [row]) today
      = getDailyTotal rows today + (if row.date == today then row.costUsd else 0) := by
  simp [getDailyTotal, List.filter_append]
  split <;> rename_i h
  · simp [List.filter, beq_iff_eq.mpr h]
  · simp [List.filter, beq_eq_false_iff_ne.mpr h]

lemma runRecords_total (today : String) (calls : List (String × String × Nat × Nat)) :
    ∀ rows : List CostRow,
      getDailyTotal (runRecords rows today calls).2 today
        = getDailyTotal rows today + ((runRecords rows today calls).1).sum := by
  induction calls with
  | nil => intro rows; simp [runRecords]
  | cons c rest ih =>
    intro rows
    obtain ⟨a, m, i, o⟩ := c
    simp only [runRecords, costTrackerLog]
    rw [ih]
    rw [getDailyTotal_append]
    simp
    ring

/-- Claim C6: after N `record` calls on one date, `daily_total()` equals
the sum of the individually returned costs, each cost being
`input/1000 * price_in + output/1000 * price_out` with a default price
for unknown models. -/
theorem c6_cost_additivity :
    (∀ (rows : List CostRow) (today : String) (calls : List (String × String × Nat × Nat)),
      getDailyTotal (runRecords rows today calls).2 today
        = getDailyTotal rows today + ((runRecords rows today calls).1).sum)
    ∧ (∀ (today : String) (calls : List (String × String × Nat × Nat)),
      getDailyTotal (runRecords [] today calls).2 today = ((runRecords [] today calls).1).sum)
    ∧ (∀ (rows : List CostRow) (today a m : String) (i o : Nat),
      (costTrackerLog rows today a m i o).1
        = (i : ℚ) / 1000 * (modelCosts m).1 + (o : ℚ) / 1000 * (modelCosts m).2)
    ∧ modelCosts "gpt-4o" = (0.005, 0.015)
    ∧ modelCosts "claude-3-haiku" = (0.00025, 0.00125)
    ∧ modelCosts "some-unknown-model" = (0.001, 0.002) := by
  refine ⟨fun rows today calls => runRecords_total today calls rows, ?_, ?_, ?_, ?_, ?_⟩
  · intro today calls
    rw [runRecords_total]
    simp [getDailyTotal]
  · intro rows today a m i o
    rfl
  · rfl
  · rfl
  · rfl

/-- Claim C8 (code bug): the body of `complete` checks the selected
provider's key (Claude-prefixed names select Anthropic, all others
OpenAI) and fails with the credential-missing error before any network
request — but the module itself contains async generators with
value-carrying `return` statements, so CPython refuses to compile it and
any import of `complete` raises `SyntaxError` instead. -/
theorem c8_credential_check_before_network :
    (∀ model : String, completeDispatch ⟨"", ""⟩ model
      = .error (.credentialMissing (if isClaudeModel model then
          "Anthropic/Claude API key not set. Run: python main.py setup"
        else "OpenAI API key not set. Run: python main.py setup")))
    ∧ isClaudeModel "claude-3-5-sonnet" = true
    ∧ isClaudeModel "Claude-3-Haiku" = true
    ∧ isClaudeModel "gpt-4o-mini" = false
    ∧ llmClientModuleCompiles = false := by
  refine ⟨?_, by decide, by decide, by decide, rfl⟩
  intro model
  by_cases h : isClaudeModel model = true
  · simp [completeDispatch, h]
  · simp only [Bool.not_eq_true] at h
    simp [completeDispatch, h]


lemma procBackend_called (userLog : LogEntry) (source model : String) (stream : Bool)
    (messages : List Msg) (today : String) (now : ℚ) (costRows : List CostRow)
    (cache1 : ResponseCacheState) (pS : StreamResult) (pF : Except String String)
    (oe : Bool) (oo : Except String String) :
    (procBackend userLog source model stream messages today now costRows cache1 pS pF
      oe oo).backendCalled = true := by
  unfold procBackend procFallback
  split
  · cases pS <;> simp
  · cases pF <;> simp

lemma procBackend_raised_none (userLog : LogEntry) (source model : String) (stream : Bool)
    (messages : List Msg) (today : String) (now : ℚ) (costRows : List CostRow)
    (cache1 : ResponseCacheState) (pS : StreamResult) (pF : Except String String)
    (oe : Bool) (oo : Except String String) :
    (procBackend userLog source model stream messages today now costRows cache1 pS pF
      oe oo).raised = none := by
  unfold procBackend procFallback
  split
  · cases pS <;> simp
  · cases pF <;> simp

lemma procBackend_log (userLog : LogEntry) (source model : String) (stream : Bool)
    (messages : List Msg) (today : String) (now : ℚ) (costRows : List CostRow)
    (cache1 : ResponseCacheState) (pS : StreamResult) (pF : Except String String)
    (oe : Bool) (oo : Except String String) :
    ∃ reply, (procBackend userLog source model stream messages today now costRows cache1
      pS pF oe oo).log = [userLog, ⟨"orchestrator", source, "assistant", reply, none⟩] := by
  unfold procBackend procFallback
  split
  · cases pS <;> exact ⟨_, rfl⟩
  · cases pF <;> exact ⟨_, rfl⟩

lemma processMain_raised_none (settings : OrchSettings) (model userMessage source : String)
    (stream : Bool) (today : String) (now : ℚ) (costRows : List CostRow)
    (cache : ResponseCacheState) (context : String) (pS : StreamResult)
    (pF : Except String String) (oe : Bool) (oo : Except String String) :
    (processMain settings model userMessage source stream today now costRows cache context
      pS pF oe oo).raised = none := by
  simp only [processMain]
  split
  · rfl
  split
  · apply procBackend_raised_none
  split
  · split
    · rfl
    · apply procBackend_raised_none
  · apply procBackend_raised_none

lemma processMain_log (settings : OrchSettings) (model userMessage source : String)
    (stream : Bool) (today : String) (now : ℚ) (costRows : List CostRow)
    (cache : ResponseCacheState) (context : String) (pS : StreamResult)
    (pF : Except String String) (oe : Bool) (oo : Except String String) :
    ∃ reply, (processMain settings model userMessage source stream today now costRows cache
      context pS pF oe oo).log
      = [⟨source, "orchestrator", "user", userMessage, none⟩,
         ⟨"orchestrator", source, "assistant", reply, none⟩] := by
  simp only [processMain]
  split
  · exact ⟨_, rfl⟩
  split
  · apply procBackend_log
  split
  · split
    · exact ⟨_, rfl⟩
    · apply procBackend_log
  · apply procBackend_log

/-- Claim C1: with budget enforcement enabled and the ledger's daily
total at or above the ceiling, `process` yields exactly the one
budget-cap message, logs it as the assistant reply, calls no backend,
appends no cost row, and raises nothing. -/
theorem c1_budget_short_circuit (settings : OrchSettings) (model userMessage source : String)
    (stream : Bool) (today : String) (now : ℚ) (costRows : List CostRow)
    (cache : ResponseCacheState) (memOutcome : Except Unit (List String))
    (pS : StreamResult) (pF : Except String String) (oe : Bool)
    (oo : Except String String) (rm : String) (kp : Bool) (ws : StreamResult)
    (hsub : settings.useSubagents = false)
    (hen : settings.budget.enabled = true)
    (hcap : getDailyTotal costRows today ≥ settings.budget.dailyUsd) :
    (process settings model userMessage source stream today now costRows cache memOutcome
      pS pF oe oo rm kp ws).tokens = [budgetCapMessage (getDailyTotal costRows today)]
    ∧ (process settings model userMessage source stream today now costRows cache memOutcome
      pS pF oe oo rm kp ws).log
      = [⟨source, "orchestrator", "user", userMessage, none⟩,
         ⟨"orchestrator", source, "assistant",
           budgetCapMessage (getDailyTotal costRows today), none⟩]
    ∧ (process settings model userMessage source stream today now costRows cache memOutcome
      pS pF oe oo rm kp ws).backendCalled = false
    ∧ (process settings model userMessage source stream today now costRows cache memOutcome
      pS pF oe oo rm kp ws).costRows = costRows
    ∧ (process settings model userMessage source stream today now costRows cache memOutcome
      pS pF oe oo rm kp ws).raised = none := by
  have hcond : (settings.budget.enabled = true)
      ∧ getDailyTotal costRows today ≥ settings.budget.dailyUsd := ⟨hen, hcap⟩
  simp only [process, hsub, Bool.false_eq_true, if_false, processMain]
  rw [if_pos hcond]
  exact ⟨rfl, rfl, rfl, rfl, rfl⟩

/-- Witness for C1 at a concrete ledger already holding 1.25 USD against
a 1 USD cap. -/
theorem c1_budget_short_circuit_witness :
    (process ⟨false, ⟨true, 1⟩⟩ "gpt-4o-mini" "hi" "user" true "2026-10-12" 0
      [⟨"2026-10-12", "orchestrator", "gpt-4o", 100000, 50000, 1.25⟩]
      ⟨3600, fun _ => none⟩ (.ok []) (.ok []) (.ok "") false (.ok "") "m" true
      (.ok [])).backendCalled = false :=
  (c1_budget_short_circuit ⟨false, ⟨true, 1⟩⟩ "gpt-4o-mini" "hi" "user" true "2026-10-12" 0
    [⟨"2026-10-12", "orchestrator", "gpt-4o", 100000, 50000, 1.25⟩]
    ⟨3600, fun _ => none⟩ (.ok []) (.ok []) (.ok "") false (.ok "") "m" true (.ok [])
    rfl rfl (by norm_num [getDailyTotal, List.filter])).2.2.1

/-- Claim C9: a memory-store exception during augmentation is swallowed -
the run is identical to one whose search returned no facts - and the
call still completes; `search` returns the empty list when the semantic
index is unavailable. -/
theorem c9_memory_degradation :
    (∀ (settings : OrchSettings) (model userMessage source : String) (stream : Bool)
      (today : String) (now : ℚ) (costRows : List CostRow) (cache : ResponseCacheState)
      (u : Unit) (pS : StreamResult) (pF : Except String String) (oe : Bool)
      (oo : Except String String) (rm : String) (kp : Bool) (ws : StreamResult),
      process settings model userMessage source stream today now costRows cache (.error u)
        pS pF oe oo rm kp ws
      = process settings model userMessage source stream today now costRows cache (.ok [])
        pS pF oe oo rm kp ws)
    ∧ (∀ (settings : OrchSettings) (model userMessage source : String) (stream : Bool)
      (today : String) (now : ℚ) (costRows : List CostRow) (cache : ResponseCacheState)
      (memOutcome : Except Unit (List String)) (pS : StreamResult)
      (pF : Except String String) (oe : Bool) (oo : Except String String) (rm : String)
      (kp : Bool) (ws : StreamResult), settings.useSubagents = false →
      (process settings model userMessage source stream today now costRows cache memOutcome
        pS pF oe oo rm kp ws).raised = none)
    ∧ memoryStoreSearch none = .ok [] := by
  refine ⟨?_, ?_, rfl⟩
  · intro settings model userMessage source stream today now costRows cache u pS pF oe oo
      rm kp ws
    rfl
  · intro settings model userMessage source stream today now costRows cache memOutcome pS
      pF oe oo rm kp ws hsub
    simp only [process, hsub, Bool.false_eq_true, if_false]
    apply processMain_raised_none

/-- Witness for C9: completion with a raising memory store at concrete
inputs. -/
theorem c9_memory_degradation_witness :
    (process ⟨false, ⟨false, 10⟩⟩ "gpt-4o-mini" "hi" "user" true "d" 0 []
      ⟨3600, fun _ => none⟩ (.error ()) (.ok ["ok"]) (.ok "") false (.ok "") "m" true
      (.ok [])).raised = none :=
  c9_memory_degradation.2.1 ⟨false, ⟨false, 10⟩⟩ "gpt-4o-mini" "hi" "user" true "d" 0 []
    ⟨3600, fun _ => none⟩ (.error ()) (.ok ["ok"]) (.ok "") false (.ok "") "m" true
    (.ok []) rfl

/-- Claim C10: a cached empty-string response is returned by `get` but
treated as a miss by the pipeline (`if cached:` falsiness), which
proceeds to call the model backend. -/
theorem c10_empty_cached_response_not_served (settings : OrchSettings)
    (model userMessage source : String) (today : String) (now t0 : ℚ)
    (costRows : List CostRow) (cache : ResponseCacheState)
    (memOutcome : Except Unit (List String)) (pS : StreamResult)
    (pF : Except String String) (oe : Bool) (oo : Except String String) (rm : String)
    (kp : Bool) (ws : StreamResult)
    (hsub : settings.useSubagents = false)
    (hbud : ¬(settings.budget.enabled = true
      ∧ getDailyTotal costRows today ≥ settings.budget.dailyUsd))
    (hstore : cache.store
      (cacheKey model (procMessages (memoryContext memOutcome) userMessage)) = some ("", t0))
    (hfresh : ¬(cache.ttl > 0 ∧ now - t0 > (cache.ttl : ℚ))) :
    (cacheGet cache model (procMessages (memoryContext memOutcome) userMessage) now).1
      = some ""
    ∧ (process settings model userMessage source false today now costRows cache memOutcome
      pS pF oe oo rm kp ws).backendCalled = true := by
  have hget : cacheGet cache model (procMessages (memoryContext memOutcome) userMessage) now
      = (some "", cache) := by
    simp only [cacheGet, hstore]
    rw [if_neg hfresh]
  refine ⟨by rw [hget], ?_⟩
  simp only [process, hsub, Bool.false_eq_true, if_false, processMain]
  rw [if_neg hbud]
  simp only [Bool.false_eq_true, if_false, hget]
  rw [if_neg (fun h => h rfl)]
  apply procBackend_called

/-- Witness for C10 with a concrete cache holding an empty string under
the request's key. -/
theorem c10_empty_cached_response_not_served_witness :
    (process ⟨false, ⟨false, 10⟩⟩ "gpt-4o-mini" "hi" "user" false "d" 5 []
      ⟨3600, fun k =>
        if k = cacheKey "gpt-4o-mini" (procMessages (memoryContext (.ok [])) "hi")
        then some ("", 0) else none⟩
      (.ok []) (.ok []) (.ok "fresh") false (.ok "") "m" true
      (.ok [])).backendCalled = true :=
  (c10_empty_cached_response_not_served ⟨false, ⟨false, 10⟩⟩ "gpt-4o-mini" "hi" "user" "d"
    5 0 [] ⟨3600, fun k =>
      if k = cacheKey "gpt-4o-mini" (procMessages (memoryContext (.ok [])) "hi")
      then some ("", 0) else none⟩
    (.ok []) (.ok []) (.ok "fresh") false (.ok "") "m" true (.ok [])
    rfl (by simp) (by simp) (by rintro ⟨-, h⟩; norm_num at h)).2

/-- Claim C3: on primary-backend failure `process` makes exactly one
fallback attempt iff Ollama is enabled, emits the combined two-failure
message when the fallback also fails and the single error message when
no fallback is enabled, logs the final text as the assistant reply, and
never propagates an exception. -/
theorem c3_fallback_behavior :
    (∀ (settings : OrchSettings) (model userMessage source today : String) (now : ℚ)
      (costRows : List CostRow) (cache : ResponseCacheState)
      (mem : Except Unit (List String)) (toks : List String) (e : String)
      (pF : Except String String) (oe : Bool) (oo : Except String String) (rm : String)
      (kp : Bool) (ws : StreamResult),
      settings.useSubagents = false →
      (process settings model userMessage source true today now costRows cache mem
        (.fail toks e) pF oe oo rm kp ws).backendCalled = true →
      (process settings model userMessage source true today now costRows cache mem
        (.fail toks e) pF oe oo rm kp ws).tokens = toks ++ [fallbackMessage e oe oo]
      ∧ (process settings model userMessage source true today now costRows cache mem
        (.fail toks e) pF oe oo rm kp ws).log
        = [⟨source, "orchestrator", "user", userMessage, none⟩,
           ⟨"orchestrator", source, "assistant", fallbackMessage e oe oo, none⟩]
      ∧ (process settings model userMessage source true today now costRows cache mem
        (.fail toks e) pF oe oo rm kp ws).fallbackAttempts = (if oe then 1 else 0)
      ∧ (process settings model userMessage source true today now costRows cache mem
        (.fail toks e) pF oe oo rm kp ws).raised = none)
    ∧ (∀ (settings : OrchSettings) (model userMessage source today : String) (now : ℚ)
      (costRows : List CostRow) (cache : ResponseCacheState)
      (mem : Except Unit (List String)) (pS : StreamResult) (e : String) (oe : Bool)
      (oo : Except String String) (rm : String) (kp : Bool) (ws : StreamResult),
      settings.useSubagents = false →
      (process settings model userMessage source false today now costRows cache mem
        pS (.error e) oe oo rm kp ws).backendCalled = true →
      (process settings model userMessage source false today now costRows cache mem
        pS (.error e) oe oo rm kp ws).tokens = [fallbackMessage e oe oo]
      ∧ (process settings model userMessage source false today now costRows cache mem
        pS (.error e) oe oo rm kp ws).log
        = [⟨source, "orchestrator", "user", userMessage, none⟩,
           ⟨"orchestrator", source, "assistant", fallbackMessage e oe oo, none⟩]
      ∧ (process settings model userMessage source false today now costRows cache mem
        pS (.error e) oe oo rm kp ws).fallbackAttempts = (if oe then 1 else 0)
      ∧ (process settings model userMessage source false today now costRows cache mem
        pS (.error e) oe oo rm kp ws).raised = none)
    ∧ (∀ e e2 : String, fallbackMessage e true (.error e2)
        = "Cloud API error: " ++ e ++ ". Ollama fallback failed: " ++ e2)
    ∧ (∀ (e : String) (oo : Except String String), fallbackMessage e false oo = "Error: " ++ e)
    ∧ (∀ e t : String, fallbackMessage e true (.ok t) = t)
    ∧ (∀ (settings : OrchSettings) (model userMessage source : String) (stream : Bool)
      (today : String) (now : ℚ) (costRows : List CostRow) (cache : ResponseCacheState)
      (mem : Except Unit (List String)) (pS : StreamResult) (pF : Except String String)
      (oe : Bool) (oo : Except String String) (rm : String) (kp : Bool)
      (ws : StreamResult), settings.useSubagents = false →
      (process settings model userMessage source stream today now costRows cache mem
        pS pF oe oo rm kp ws).raised = none) := by
  refine ⟨?_, ?_, fun e e2 => rfl, fun e oo => rfl, fun e t => rfl, ?_⟩
  · intro settings model userMessage source today now costRows cache mem toks e pF oe oo
      rm kp ws hsub hcalled
    simp only [process, hsub, Bool.false_eq_true, if_false, processMain] at hcalled ⊢
    by_cases hb : (settings.budget.enabled = true
        ∧ getDailyTotal costRows today ≥ settings.budget.dailyUsd)
    · rw [if_pos hb] at hcalled
      exact absurd hcalled (by simp)
    · rw [if_neg hb] at hcalled ⊢
      simp [procBackend, procFallback]
  · intro settings model userMessage source today now costRows cache mem pS e oe oo rm kp
      ws hsub hcalled
    simp only [process, hsub, Bool.false_eq_true, if_false, processMain] at hcalled ⊢
    by_cases hb : (settings.budget.enabled = true
        ∧ getDailyTotal costRows today ≥ settings.budget.dailyUsd)
    · rw [if_pos hb] at hcalled
      exact absurd hcalled (by simp)
    · rw [if_neg hb] at hcalled ⊢
      rcases hcg : cacheGet cache model
          (procMessages (memoryContext mem) userMessage) now with ⟨copt, cache1⟩
      rw [hcg] at hcalled
      cases copt with
      | none => simp [procBackend, procFallback]
      | some c =>
        by_cases hc : c = ""
        · subst hc
          simp only [] at hcalled ⊢
          rw [if_neg (fun h => h rfl)] at hcalled ⊢
          simp [procBackend, procFallback]
        · simp [hc] at hcalled
  · intro settings model userMessage source stream today now costRows cache mem pS pF oe
      oo rm kp ws hsub
    simp only [process, hsub, Bool.false_eq_true, if_false]
    apply processMain_raised_none

/-- Witness for C3: the streaming failure clause at concrete inputs with
Ollama disabled. -/
theorem c3_fallback_behavior_witness :
    (process ⟨false, ⟨false, 10⟩⟩ "gpt-4o-mini" "hi" "user" true "d" 0 []
      ⟨3600, fun _ => none⟩ (.ok []) (.fail [] "boom") (.ok "") false (.ok "") "m" true
      (.ok [])).tokens = [] ++ [fallbackMessage "boom" false (.ok "")] :=
  (c3_fallback_behavior.1 ⟨false, ⟨false, 10⟩⟩ "gpt-4o-mini" "hi" "user" "d" 0 []
    ⟨3600, fun _ => none⟩ (.ok []) [] "boom" (.ok "") false (.ok "") "m" true (.ok [])
    rfl (by rfl)).1

/-- Counterexample to C2 as stated: a completed sub-agent-routed call
appends the assistant reply twice (once by the worker, once by the
router), so "exactly one assistant-role message" fails. -/
theorem c2_logging_completeness_counterexample :
    (process ⟨true, ⟨false, 10⟩⟩ "gpt-4o-mini" "hello" "user" true "d" 0 []
      ⟨3600, fun _ => none⟩ (.ok []) (.ok []) (.ok "") false (.ok "") "gpt-4o-mini" true
      (.ok ["hi", "!"])).raised = none
    ∧ ((process ⟨true, ⟨false, 10⟩⟩ "gpt-4o-mini" "hello" "user" true "d" 0 []
      ⟨3600, fun _ => none⟩ (.ok []) (.ok []) (.ok "") false (.ok "") "gpt-4o-mini" true
      (.ok ["hi", "!"])).log.filter (fun en => en.role == "assistant")).length = 2 := by
  constructor
  · rfl
  · rfl

/-- Claim C2 amended: every completing `process` call appends exactly one
user-role message, first; non-subagent paths append exactly one
assistant-role message, while the sub-agent path appends the reply as an
assistant-role message twice. -/
theorem c2_logging_completeness_amended (settings : OrchSettings)
    (model userMessage source : String) (stream : Bool) (today : String) (now : ℚ)
    (costRows : List CostRow) (cache : ResponseCacheState)
    (memOutcome : Except Unit (List String)) (pS : StreamResult)
    (pF : Except String String) (oe : Bool) (oo : Except String String) (rm : String)
    (kp : Bool) (ws : StreamResult)
    (hdone : (process settings model userMessage source stream today now costRows cache
      memOutcome pS pF oe oo rm kp ws).raised = none) :
    ((process settings model userMessage source stream today now costRows cache memOutcome
      pS pF oe oo rm kp ws).log.filter (fun en => en.role == "user")).length = 1
    ∧ ((process settings model userMessage source stream today now costRows cache memOutcome
      pS pF oe oo rm kp ws).log.head?.map LogEntry.role) = some "user"
    ∧ (settings.useSubagents = false →
      ((process settings model userMessage source stream today now costRows cache memOutcome
        pS pF oe oo rm kp ws).log.filter (fun en => en.role == "assistant")).length = 1)
    ∧ (settings.useSubagents = true →
      ((process settings model userMessage source stream today now costRows cache memOutcome
        pS pF oe oo rm kp ws).log.filter (fun en => en.role == "assistant")).length = 2) := by
  by_cases hsub : settings.useSubagents = true
  · simp only [process, hsub, if_true] at hdone ⊢
    unfold routeRun workerRun at hdone ⊢
    cases kp with
    | false => simp at hdone
    | true =>
      cases ws with
      | fail toks e => simp at hdone
      | ok toks =>
        simp only [Bool.true_eq_false, if_true, ite_true] at hdone ⊢
        refine ⟨?_, ?_, ?_, ?_⟩
        · simp
        · simp
        · intro hf; exact hf.elim
        · intro hf; simp
  · have hsub' : settings.useSubagents = false := by
      simpa using hsub
    obtain ⟨reply, hlog⟩ := processMain_log settings model userMessage source stream today
      now costRows cache (memoryContext memOutcome) pS pF oe oo
    simp only [process, hsub', Bool.false_eq_true, if_false] at hdone ⊢
    rw [hlog]
    refine ⟨by simp, by simp, fun hf => by simp, fun ht => ht.elim⟩

/-- Witness for C2 (amended) at a concrete completed call. -/
theorem c2_logging_completeness_amended_witness :
    ((process ⟨false, ⟨false, 10⟩⟩ "gpt-4o-mini" "hello" "user" true "d" 0 []
      ⟨3600, fun _ => none⟩ (.ok []) (.ok ["hi"]) (.ok "") false (.ok "") "m" true
      (.ok [])).log.filter (fun en => en.role == "user")).length = 1 :=
  (c2_logging_completeness_amended ⟨false, ⟨false, 10⟩⟩ "gpt-4o-mini" "hello" "user" true
    "d" 0 [] ⟨3600, fun _ => none⟩ (.ok []) (.ok ["hi"]) (.ok "") false (.ok "") "m" true
    (.ok []) (by rfl)).1

end OpenClaw
